import Mathlib

/-!
Verification of the hg-abogados-ia-render service against its specification.

The development shallowly embeds the parts of the code base that the claims
touch:

* src/main.py : the signed download-token helpers (sign_download_payload,
  verify_download_token) and the fielweb_download endpoint;
* src/providers/judicial_connectors.py : the dedup helper, the fecha
  normaliser, the field-fallback helper pick, the sentencia mapper and the
  multi-source orchestrator buscar_juris_async, plus the validation guard of
  consultar_jurisprudencia;
* src/providers/fielweb_connector.py : the validation guard and the
  login/search control flow of consultar_fielweb.

Bytes are modelled as List Nat (each element < 256), strings of the host
language as Lean String, machine integers as Nat with explicit reductions
modulo 2 ^ 32 where the hash arithmetic overflows.  Library primitives that
the code calls (json.dumps/loads on the canonical token payloads, base64,
hashlib/hmac, datetime.utcfromtimestamp) are given executable byte-level
models that follow the documented behaviour of the Python implementations.
-/

/-- Python whitespace characters stripped by the str strip method (ASCII
subset; the inputs of this code base contain no exotic unicode spaces). -/
def isPySpace (c : Char) : Bool :=
  c = ' ' || c = '\t' || c = '\n' || c = '\r' || c = (Char.ofNat 11) || c = (Char.ofNat 12)

/-- Model of the str strip method with no argument. -/
def pyStrip (s : String) : String :=
  String.mk (((s.toList.dropWhile isPySpace).reverse.dropWhile isPySpace).reverse)

/-- ASCII bytes of a (pure ASCII) string literal.  Models the utf-8 encoding
used by the Python code, which is the identity on ASCII text. -/
def asciiBytes (s : String) : List Nat :=
  s.toList.map Char.toNat

/-- Decimal digit bytes of a natural number, with explicit fuel so that the
recursion is structural.  Models the decimal rendering json.dumps uses for
Python ints. -/
def natDecAux : Nat → Nat → List Nat
  | 0, _ => []
  | fuel + 1, n =>
      if n < 10 then [48 + n]
      else natDecAux fuel (n / 10) ++ [48 + n % 10]

/-- Decimal ASCII bytes of a natural number. -/
def natDec (n : Nat) : List Nat :=
  natDecAux (n + 1) n

/-- Numeric value of a list of decimal digit bytes, most significant first. -/
def digitsVal (ds : List Nat) : Nat :=
  ds.foldl (fun a d => a * 10 + (d - 48)) 0

/-- Test for an ASCII decimal digit byte. -/
def isDigitByte (b : Nat) : Bool :=
  48 ≤ b && b ≤ 57

/-- Base64url alphabet (RFC 4648 urlsafe variant used by
base64.urlsafe_b64encode). -/
def b64Alphabet : List Char :=
  ("ABCDEFGHIJKLMNOPQRSTUVWXYZabcdefghijklmnopqrstuvwxyz0123456789-_").toList

/-- Character of a 6-bit group. -/
def b64Char (v : Nat) : Char :=
  b64Alphabet.getD (v % 64) ('A')

/-- Inverse of the alphabet table: value of a base64url character. -/
def b64CharVal (c : Char) : Option Nat :=
  if 65 ≤ c.toNat ∧ c.toNat ≤ 90 then some (c.toNat - 65)
  else if 97 ≤ c.toNat ∧ c.toNat ≤ 122 then some (c.toNat - 97 + 26)
  else if 48 ≤ c.toNat ∧ c.toNat ≤ 57 then some (c.toNat - 48 + 52)
  else if c = '-' then some 62
  else if c = '_' then some 63
  else none

/-- Padded base64 encoding of a byte list, three input bytes per four output
characters, with '=' padding in the final group (base64.urlsafe_b64encode). -/
def b64EncodePadded : List Nat → List Char
  | [] => []
  | [a] => [b64Char (a / 4), b64Char (a % 4 * 16), '=', '=']
  | [a, b] => [b64Char (a / 4), b64Char (a % 4 * 16 + b / 16), b64Char (b % 16 * 4), '=']
  | a :: b :: c :: rest =>
      b64Char (a / 4) :: b64Char (a % 4 * 16 + b / 16) ::
      b64Char (b % 16 * 4 + c / 64) :: b64Char (c % 64) :: b64EncodePadded rest

/-- Model of main.py b64url_encode: padded encoding with the trailing '='
stripped.  Padding characters occur only in the final group, so removing every
'=' equals the rstrip of the source. -/
def b64urlEncode (bs : List Nat) : List Char :=
  (b64EncodePadded bs).filter (fun c => c ≠ '=')

/-- Group-wise base64 decoding.  Follows the lenient binascii decoder used by
base64.urlsafe_b64decode: in a final group with padding the unused low bits of
the last data character are ignored (not required to be zero).  Inputs outside
the shapes produced by re-padded tokens decode to none, which models the
binascii exception. -/
def b64DecodeGroups : List Char → Option (List Nat)
  | [] => some []
  | c1 :: c2 :: c3 :: c4 :: rest =>
      if c3 = '=' then
        if c4 = '=' ∧ rest = [] then
          match b64CharVal c1, b64CharVal c2 with
          | some v1, some v2 => some [v1 * 4 + v2 / 16]
          | _, _ => none
        else none
      else if c4 = '=' then
        if rest = [] then
          match b64CharVal c1, b64CharVal c2, b64CharVal c3 with
          | some v1, some v2, some v3 =>
              some [v1 * 4 + v2 / 16, v2 % 16 * 16 + v3 / 4]
          | _, _, _ => none
        else none
      else
        match b64CharVal c1, b64CharVal c2, b64CharVal c3, b64CharVal c4 with
        | some v1, some v2, some v3, some v4 =>
            (b64DecodeGroups rest).map
              (fun tail => (v1 * 4 + v2 / 16) :: (v2 % 16 * 16 + v3 / 4) ::
                (v3 % 4 * 64 + v4) :: tail)
        | _, _, _, _ => none
  | _ => none

/-- Model of main.py b64url_decode: re-append '=' padding up to a multiple of
four characters, then decode. -/
def b64urlDecode (cs : List Char) : Option (List Nat) :=
  b64DecodeGroups (cs ++ List.replicate ((4 - cs.length % 4) % 4) ('='))

/-- Reduction of a natural number to a 32-bit machine word. -/
def w32 (n : Nat) : Nat :=
  n % 4294967296

/-- Right rotation of a 32-bit word by n positions. -/
def rotr32 (n x : Nat) : Nat :=
  w32 (x / 2 ^ n + x % 2 ^ n * 2 ^ (32 - n))

/-- Big sigma-0 of SHA-256. -/
def bsig0 (x : Nat) : Nat :=
  rotr32 2 x ^^^ rotr32 13 x ^^^ rotr32 22 x

/-- Big sigma-1 of SHA-256. -/
def bsig1 (x : Nat) : Nat :=
  rotr32 6 x ^^^ rotr32 11 x ^^^ rotr32 25 x

/-- Small sigma-0 of SHA-256. -/
def ssig0 (x : Nat) : Nat :=
  rotr32 7 x ^^^ rotr32 18 x ^^^ x / 2 ^ 3

/-- Small sigma-1 of SHA-256. -/
def ssig1 (x : Nat) : Nat :=
  rotr32 17 x ^^^ rotr32 19 x ^^^ x / 2 ^ 10

/-- SHA-256 round constants (fractional parts of the cube roots of the first
64 primes). -/
def sha256K : List Nat :=
  [1116352408, 1899447441, 3049323471, 3921009573, 961987163, 1508970993,
   2453635748, 2870763221, 3624381080, 310598401, 607225278, 1426881987,
   1925078388, 2162078206, 2614888103, 3248222580, 3835390401, 4022224774,
   264347078, 604807628, 770255983, 1249150122, 1555081692, 1996064986,
   2554220882, 2821834349, 2952996808, 3210313671, 3336571891, 3584528711,
   113926993, 338241895, 666307205, 773529912, 1294757372, 1396182291,
   1695183700, 1986661051, 2177026350, 2456956037, 2730485921, 2820302411,
   3259730800, 3345764771, 3516065817, 3600352804, 4094571909, 275423344,
   430227734, 506948616, 659060556, 883997877, 958139571, 1322822218,
   1537002063, 1747873779, 1955562222, 2024104815, 2227730452, 2361852424,
   2428436474, 2756734187, 3204031479, 3329325298]

/-- Working state of the SHA-256 compression function. -/
structure H8 where
  a : Nat
  b : Nat
  c : Nat
  d : Nat
  e : Nat
  f : Nat
  g : Nat
  h : Nat

/-- Initial SHA-256 state (fractional parts of the square roots of the first
8 primes). -/
def sha256Init : H8 :=
  ⟨1779033703, 3144134277, 1013904242, 2773480762, 1359893119, 2600822924,
   528734635, 1541459225⟩

/-- One SHA-256 round. -/
def sha256Round (st : H8) (k w : Nat) : H8 :=
  let ch := (st.e &&& st.f) ^^^ ((st.e ^^^ 4294967295) &&& st.g)
  let maj := (st.a &&& st.b) ^^^ (st.a &&& st.c) ^^^ (st.b &&& st.c)
  let t1 := w32 (st.h + bsig1 st.e + ch + k + w)
  let t2 := w32 (bsig0 st.a + maj)
  ⟨w32 (t1 + t2), st.a, st.b, st.c, w32 (st.d + t1), st.e, st.f, st.g⟩

/-- Message-schedule extension: appends the next scheduled word, fuelled. -/
def sha256ScheduleAux : Nat → List Nat → List Nat
  | 0, ws => ws
  | n + 1, ws =>
      let w := w32 (ssig1 (ws.getD (ws.length - 2) 0) + ws.getD (ws.length - 7) 0 +
        ssig0 (ws.getD (ws.length - 15) 0) + ws.getD (ws.length - 16) 0)
      sha256ScheduleAux n (ws ++ [w])

/-- SHA-256 compression of one 16-word block. -/
def sha256Compress (st : H8) (block : List Nat) : H8 :=
  let ws := sha256ScheduleAux 48 block
  let st2 := (sha256K.zip ws).foldl (fun s kw => sha256Round s kw.1 kw.2) st
  ⟨w32 (st.a + st2.a), w32 (st.b + st2.b), w32 (st.c + st2.c), w32 (st.d + st2.d),
   w32 (st.e + st2.e), w32 (st.f + st2.f), w32 (st.g + st2.g), w32 (st.h + st2.h)⟩

/-- Big-endian 32-bit words of a byte list. -/
def bytesToWords32 : List Nat → List Nat
  | b1 :: b2 :: b3 :: b4 :: rest =>
      (b1 * 16777216 + b2 * 65536 + b3 * 256 + b4) :: bytesToWords32 rest
  | _ => []

/-- Big-endian bytes of a 32-bit word. -/
def wordBE (x : Nat) : List Nat :=
  [x / 16777216 % 256, x / 65536 % 256, x / 256 % 256, x % 256]

/-- Big-endian bytes of a 64-bit length field. -/
def len64BE (n : Nat) : List Nat :=
  [n / 72057594037927936 % 256, n / 281474976710656 % 256,
   n / 1099511627776 % 256, n / 4294967296 % 256,
   n / 16777216 % 256, n / 65536 % 256, n / 256 % 256, n % 256]

/-- SHA-256 message padding: a 0x80 byte, zeros, and the bit length, up to a
multiple of 64 bytes. -/
def sha256Pad (msg : List Nat) : List Nat :=
  msg ++ [128] ++ List.replicate ((119 - msg.length % 64) % 64) 0 ++
    len64BE (8 * msg.length)

/-- Folds the compression function over the padded blocks, fuelled by the
number of blocks. -/
def sha256BlocksAux : Nat → List Nat → H8 → H8
  | 0, _, st => st
  | n + 1, bs, st =>
      sha256BlocksAux n (bs.drop 64) (sha256Compress st (bytesToWords32 (bs.take 64)))

/-- SHA-256 digest (32 bytes) of a byte list; models hashlib.sha256. -/
def sha256 (msg : List Nat) : List Nat :=
  let padded := sha256Pad msg
  let st := sha256BlocksAux (padded.length / 64) padded sha256Init
  wordBE st.a ++ wordBE st.b ++ wordBE st.c ++ wordBE st.d ++
  wordBE st.e ++ wordBE st.f ++ wordBE st.g ++ wordBE st.h

/-- HMAC-SHA256 (RFC 2104 with a 64-byte block), modelling hmac.new with
digestmod sha256. -/
def hmacSha256 (key msg : List Nat) : List Nat :=
  let k0 := if 64 < key.length then sha256 key else key
  let kp := k0 ++ List.replicate (64 - k0.length) 0
  sha256 (kp.map (fun b => b ^^^ 92) ++ sha256 (kp.map (fun b => b ^^^ 54) ++ msg))

/-- Lowercase hex digit characters. -/
def hexDigitChar (n : Nat) : Char :=
  ("0123456789abcdef").toList.getD (n % 16) ('0')

/-- Lowercase hex rendering of a byte list; models the hexdigest method. -/
def toHex (bs : List Nat) : List Char :=
  bs.foldr (fun b acc => hexDigitChar (b / 16) :: hexDigitChar (b % 16) :: acc) []

/-- UTF-8 bytes of a single character. -/
def utf8Char (c : Char) : List Nat :=
  let n := c.toNat
  if n < 128 then [n]
  else if n < 2048 then [192 + n / 64, 128 + n % 64]
  else if n < 65536 then [224 + n / 4096, 128 + n / 64 % 64, 128 + n % 64]
  else [240 + n / 262144, 128 + n / 4096 % 64, 128 + n / 64 % 64, 128 + n % 64]

/-- UTF-8 bytes of a string; models the encode method of Python str. -/
def strBytes (s : String) : List Nat :=
  s.toList.foldr (fun c acc => utf8Char c ++ acc) []

/-- Download formats accepted by the fielweb download_link endpoint of
main.py (formato must be pdf, word or html). -/
inductive Formato where
  | pdf
  | word
  | html

deriving DecidableEq, Repr

/-- JSON string content of a format. -/
def Formato.str : Formato → String
  | .pdf => ("pdf")
  | .word => ("word")
  | .html => ("html")

/-- State of the exp entry of a token payload dict: the key can be missing,
bound to JSON null, or bound to an integer.  Python treats the first two the
same through dict.get. -/
inductive ExpField where
  | absent
  | null
  | val (e : Nat)

deriving DecidableEq, Repr

/-- Canonical download-token payload of main.py: the dict built by
fielweb_download_link has keys norma_id, formato, concordancias and exp, and
verify_download_token reads back exactly these keys. -/
structure TokenPayload where
  norma_id : Nat
  formato : Formato
  concordancias : Bool
  exp : ExpField

deriving DecidableEq, Repr

/-- Serialized payload bytes: models json.dumps with separators (",", ":")
and sort_keys True applied to the canonical payload dict (key order
concordancias < exp < formato < norma_id), encoded to utf-8.  When the exp
key is missing from the dict it is simply not serialized. -/
def dumpsBytes (p : TokenPayload) : List Nat :=
  asciiBytes ("\x7b\"concordancias\":") ++
  asciiBytes (if p.concordancias then ("true") else ("false")) ++
  (match p.exp with
   | .absent => []
   | .null => asciiBytes (",\"exp\":null")
   | .val e => asciiBytes (",\"exp\":") ++ natDec e) ++
  asciiBytes (",\"formato\":\"") ++ asciiBytes p.formato.str ++
  asciiBytes ("\",\"norma_id\":") ++ natDec p.norma_id ++
  asciiBytes ("\x7d")

/-- Strips an expected literal byte sequence from the front of the input,
returning the remainder, or none on mismatch. -/
def stripLit : List Nat → List Nat → Option (List Nat)
  | [], bs => some bs
  | _ :: _, [] => none
  | p :: ps, b :: bs => if b = p then stripLit ps bs else none

/-- Longest leading run of decimal digits together with the remainder. -/
def parseNatBytes (bs : List Nat) : Option (Nat × List Nat) :=
  if (bs.takeWhile isDigitByte).isEmpty then none
  else some (digitsVal (bs.takeWhile isDigitByte), bs.dropWhile isDigitByte)

/-- Parses the boolean literal of the concordancias entry. -/
def parseBoolBytes (bs : List Nat) : Option (Bool × List Nat) :=
  match stripLit (asciiBytes ("true")) bs with
  | some r => some (true, r)
  | none =>
      match stripLit (asciiBytes ("false")) bs with
      | some r => some (false, r)
      | none => none

/-- Parses the quoted format literal. -/
def parseFormatoBytes (bs : List Nat) : Option (Formato × List Nat) :=
  match stripLit (asciiBytes ("pdf")) bs with
  | some r => some (.pdf, r)
  | none =>
      match stripLit (asciiBytes ("word")) bs with
      | some r => some (.word, r)
      | none =>
          match stripLit (asciiBytes ("html")) bs with
          | some r => some (.html, r)
          | none => none

/-- Parses the optional exp entry. -/
def parseExpBytes (bs : List Nat) : Option (ExpField × List Nat) :=
  match stripLit (asciiBytes (",\"exp\":")) bs with
  | none => some (.absent, bs)
  | some r =>
      match stripLit (asciiBytes ("null")) r with
      | some r2 => some (.null, r2)
      | none =>
          match parseNatBytes r with
          | some (e, r2) => some (.val e, r2)
          | none => none

/-- Model of json.loads restricted to the canonical token-payload grammar:
exactly the byte strings dumpsBytes can produce are accepted.  The
verification only ever applies it to bodies recovered from tokens that are
checked against the canonical serializer, so the restriction to this grammar
is faithful to how the code consumes json.loads. -/
def jsonLoads (bs : List Nat) : Option TokenPayload :=
  match stripLit (asciiBytes ("\x7b\"concordancias\":")) bs with
  | none => none
  | some r1 =>
      match parseBoolBytes r1 with
      | none => none
      | some (conc, r2) =>
          match parseExpBytes r2 with
          | none => none
          | some (exp, r3) =>
              match stripLit (asciiBytes (",\"formato\":\"")) r3 with
              | none => none
              | some r4 =>
                  match parseFormatoBytes r4 with
                  | none => none
                  | some (fmt, r5) =>
                      match stripLit (asciiBytes ("\",\"norma_id\":")) r5 with
                      | none => none
                      | some r6 =>
                          match parseNatBytes r6 with
                          | none => none
                          | some (nid, r7) =>
                              match stripLit (asciiBytes ("\x7d")) r7 with
                              | none => none
                              | some r8 =>
                                  if r8.isEmpty then some ⟨nid, fmt, conc, exp⟩
                                  else none

/-- Head byte of the input is not a decimal digit (or the input is empty). -/
def headNotDigit (bs : List Nat) : Bool :=
  match bs with
  | [] => true
  | b :: _ => !isDigitByte b

/-- Splits at the first occurrence of a dot, keeping both sides. -/
def splitFirstDot : List Char → Option (List Char × List Char)
  | [] => none
  | c :: cs =>
      if c = '.' then some ([], cs)
      else (splitFirstDot cs).map (fun pr => (c :: pr.1, pr.2))

/-- Model of the str rsplit method with separator "." and maxsplit 1, as used
on the token: splits at the last dot; none models the ValueError of unpacking
a single element. -/
def rsplitDot (cs : List Char) : Option (List Char × List Char) :=
  (splitFirstDot cs.reverse).map (fun pr => (pr.2.reverse, pr.1.reverse))

/-- Verification outcomes of verify_download_token in main.py.  invalidFormat
models the HTTP 400 raised when the token has no dot, badSignature and expired
model the two HTTP 401 rejections, decodeFailure and jsonFailure model the
exceptions of base64 decoding and json parsing, which the function does not
catch. -/
inductive TokenError where
  | invalidFormat
  | decodeFailure
  | badSignature
  | jsonFailure
  | expired

deriving DecidableEq, Repr

/-- Model of main.py sign_download_payload: base64url of the canonical JSON
bytes, a dot, and the hex HMAC-SHA256 of those bytes under the secret. -/
def sign_download_payload (p : TokenPayload) (secret : String) : List Char :=
  b64urlEncode (dumpsBytes p) ++ '.' ::
    toHex (hmacSha256 (strBytes secret) (dumpsBytes p))

/-- Model of main.py verify_download_token: split at the last dot, decode the
payload part, recompute and compare the HMAC, parse the payload, then reject
when the exp entry is truthy and strictly in the past. -/
def verify_download_token (token : List Char) (secret : String) (now : Nat) :
    Except TokenError TokenPayload :=
  match rsplitDot token with
  | none => .error .invalidFormat
  | some (bodyB64, sig) =>
      match b64urlDecode bodyB64 with
      | none => .error .decodeFailure
      | some body =>
          if sig = toHex (hmacSha256 (strBytes secret) body) then
            match jsonLoads body with
            | none => .error .jsonFailure
            | some payload =>
                match payload.exp with
                | .val e => if e ≠ 0 ∧ now > e then .error .expired else .ok payload
                | _ => .ok payload
          else .error .badSignature

/-- Number of positions where two character lists differ. -/
def countDiffs (xs ys : List Char) : Nat :=
  (List.zipWith (fun a b => if a = b then 0 else 1) xs ys).sum

/-- Outcome of the fielweb_download endpoint of main.py. -/
inductive DownloadOutcome where
  | configError
  | verifyError (e : TokenError)
  | upstreamError
  | file (content : List Nat)

deriving DecidableEq, Repr

/-- Result shape returned by descargar_norma_archivo, as consumed by the
endpoint: an optional error message and the content bytes. -/
structure FetchResult where
  error : Option String
  content_bytes : List Nat

deriving DecidableEq, Repr

/-- Model of the fielweb_download endpoint of main.py.  The upstream fetch
descargar_norma_archivo is a parameter (it performs live HTTP in the source);
none models a falsy result or an exception.  The Bool of the pair records
whether the fetch was invoked at all. -/
def fielweb_download (token : List Char) (secret : String) (now : Nat)
    (fetch : Nat → Formato → Bool → Option FetchResult) :
    DownloadOutcome × Bool :=
  if secret = ("") then (.configError, false)
  else
    match verify_download_token token secret now with
    | .error e => (.verifyError e, false)
    | .ok payload =>
        match fetch payload.norma_id payload.formato payload.concordancias with
        | none => (.upstreamError, true)
        | some r =>
            match r.error with
            | some _ => (.upstreamError, true)
            | none => (.file r.content_bytes, true)

/-- ASCII decimal string of a natural number. -/
def natToStr (n : Nat) : String :=
  String.mk ((natDec n).map Char.ofNat)

/-- Two-digit zero padding, as the strftime directives m and d produce. -/
def pad2Str (n : Nat) : String :=
  if n < 10 then ("0") ++ natToStr n else natToStr n

/-- Civil calendar date (year, month, day) of a day count since 1970-01-01,
by the standard days-from-civil inversion used by proleptic Gregorian
conversions; models the date part of datetime.utcfromtimestamp for
non-negative timestamps. -/
def civilFromDays (z : Nat) : Nat × Nat × Nat :=
  let zs := z + 719468
  let era := zs / 146097
  let doe := zs % 146097
  let yoe := (doe - doe / 1460 + doe / 36524 - doe / 146096) / 365
  let y := yoe + era * 400
  let doy := doe - (365 * yoe + yoe / 4 - yoe / 100)
  let mp := (5 * doy + 2) / 153
  let d := doy - (153 * mp + 2) / 5 + 1
  let m := if mp < 10 then mp + 3 else mp - 9
  (if m ≤ 2 then y + 1 else y, m, d)

/-- Largest timestamp utcfromtimestamp accepts (9999-12-31T23:59:59Z);
beyond it the library raises, which the caller turns into an empty string. -/
def maxUtcSecs : Nat := 253402300799

/-- Date string with the strftime format Y-m-d for a second count since the
epoch, empty when the library would overflow. -/
def dateOfSecs (secs : Nat) : String :=
  if secs > maxUtcSecs then ("")
  else
    let ymd := civilFromDays (secs / 86400)
    natToStr ymd.1 ++ ("-") ++ pad2Str ymd.2.1 ++ ("-") ++ pad2Str ymd.2.2

/-- Raw JSON values that the judicial normaliser helpers inspect: null,
strings, non-negative integers (epoch stamps) and the empty list. -/
inductive RVal where
  | null
  | str (s : String)
  | intVal (n : Nat)
  | emptyList

deriving DecidableEq, Repr

/-- Model of norm_fecha of judicial_connectors.py: None becomes the empty
string, numbers above 10_000_000_000 are divided by 1000 (milliseconds) and
rendered as Y-m-d from utcfromtimestamp, smaller numbers are taken as epoch
seconds, strings are stripped, anything else becomes the empty string. -/
def norm_fecha (v : RVal) : String :=
  match v with
  | .null => ("")
  | .intVal n => if n > 10000000000 then dateOfSecs (n / 1000) else dateOfSecs n
  | .str s => pyStrip s
  | .emptyList => ("")

/-- Membership of a value in the tuple (None, "", []) tested by pick. -/
def isEmptyVal (v : RVal) : Bool :=
  match v with
  | .null => true
  | .str s => s == ("")
  | .intVal _ => false
  | .emptyList => true

/-- Python truthiness of a raw value. -/
def truthyVal (v : RVal) : Bool :=
  match v with
  | .null => false
  | .str s => s != ("")
  | .intVal n => n != 0
  | .emptyList => false

/-- First-match dict lookup. -/
def lookupKey (d : List (String × RVal)) (k : String) : Option RVal :=
  match d with
  | [] => none
  | (k2, v) :: rest => if k2 = k then some v else lookupKey rest k

/-- Model of pick of judicial_connectors.py: the first key that is present
with a value outside (None, "", []) wins; otherwise the empty string. -/
def pick (d : List (String × RVal)) (keys : List String) : RVal :=
  match keys with
  | [] => .str ("")
  | k :: ks =>
      match lookupKey d k with
      | some v => if isEmptyVal v then pick d ks else v
      | none => pick d ks

/-- Canonical sentencia record produced by map_sentencia_items of
judicial_connectors.py, restricted to the attributes computed from the
sentencia dict itself (descripcion and score also read the surrounding
search-hit item and are outside every claim). -/
structure SentenciaRec where
  fuente : String
  numero_sentencia : RVal
  numero_caso : RVal
  fecha : String
  juez : RVal
  materia : RVal
  decision : RVal
  pdf_url : RVal

deriving DecidableEq, Repr

/-- Model of one iteration of map_sentencia_items, applied to the sentencia
dict (the source first takes it.get("sentencia") or it). -/
def map_sentencia_item (sentencia : List (String × RVal)) : SentenciaRec :=
  { fuente := ("Juriscopio - Sentencias")
  , numero_sentencia :=
      pick sentencia [("numeroSentencia"), ("numSentencia"), ("numerosentencia"), ("numero")]
  , numero_caso := pick sentencia [("numeroCausa"), ("numCausa"), ("numerocausa")]
  , fecha :=
      norm_fecha (pick sentencia
        [("fechaDecision"), ("fechaNotificacion"), ("fecha"), ("fechaIngreso")])
  , juez := pick sentencia [("nombrejuez"), ("juez"), ("juezPonente"), ("loginjuez")]
  , materia :=
      match lookupKey sentencia ("materia") with
      | some v => if truthyVal v then v else .str ("")
      | none => .str ("")
  , decision := pick sentencia [("decision"), ("resolucion")]
  , pdf_url := pick sentencia [("urlPdf"), ("urlpdf"), ("urlSentencia"), ("urlauto")] }

/-- Aggregated record shape flowing through the orchestrator of
judicial_connectors.py, restricted to the keys the dedup helper and the error
path touch; url none models a dict without the url key. -/
structure JRec where
  url : Option String
  fuente : String
  titulo : String
  fecha : String
  error : Option String

deriving DecidableEq, Repr

/-- Model of the dedup helper of judicial_connectors.py with its default key
url: a record is kept only when its url value is truthy (present and
non-empty) and not seen before. -/
def dedupAux (seen : List String) : List JRec → List JRec
  | [] => []
  | r :: rs =>
      match r.url with
      | some u =>
          if u ≠ ("") ∧ u ∉ seen then r :: dedupAux (u :: seen) rs
          else dedupAux seen rs
      | none => dedupAux seen rs

/-- Entry point of the dedup model (seen starts empty). -/
def dedup (items : List JRec) : List JRec :=
  dedupAux [] items

/-- Result cap of the orchestrator. -/
def MAX_ITEMS : Nat := 10

/-- Outcome of one adapter invocation: the record list it returned, or the
message of the exception it raised. -/
abbrev SourceOutcome := Except String (List JRec)

/-- Model of the per-source loop and merge of buscar_juris_async of
judicial_connectors.py: each source either extends resultados with its
records or, when it raises, appends a single error record carrying its name
(with no url key); the combined list is then deduplicated and truncated.  The
browser plumbing around the loop is outside the model; the adapters are
parameters. -/
def buscar_juris_async (texto : String)
    (sources : List (String × SourceOutcome)) :
    Except String (String × List JRec) :=
  if texto = ("") then .error ("Debe ingresar un texto de búsqueda.")
  else
    let resultados := sources.foldl
      (fun acc s =>
        match s.2 with
        | .ok rs => acc ++ rs
        | .error e =>
            acc ++ [{ url := none, fuente := s.1, titulo := (""), fecha := ("")
                    , error := some (("No disponible: ") ++ e) }])
      []
    .ok (("Consulta completada para \x27") ++ texto ++ ("\x27."),
      (dedup resultados).take MAX_ITEMS)

/-- First truthy value of an or-chain of optional strings, defaulting to the
empty string (Python x or y or ""). -/
def firstTruthyStr (xs : List (Option String)) : String :=
  match xs with
  | [] => ("")
  | some s :: rest => if s ≠ ("") then s else firstTruthyStr rest
  | none :: rest => firstTruthyStr rest

/-- Payload keys of consultar_jurisprudencia that the validation reads. -/
structure JurisPayload where
  texto : Option String
  palabras_clave : Option String

deriving DecidableEq, Repr

/-- Model of consultar_jurisprudencia of judicial_connectors.py: empty query
text (after the or-chain and strip) returns a validation error without
touching the orchestrator; otherwise the orchestrator runs.  The Bool records
whether the orchestrator (and with it any upstream machinery) was invoked. -/
def consultar_jurisprudencia (payload : JurisPayload)
    (sources : List (String × SourceOutcome)) :
    Except String (String × List JRec) × Bool :=
  let texto := pyStrip (firstTruthyStr [payload.texto, payload.palabras_clave])
  if texto = ("") then
    (.error ("Debe proporcionar un texto válido para búsqueda."), false)
  else
    (buscar_juris_async texto sources, true)

/-- Upstream events the consultar_fielweb control flow can emit, in order. -/
inductive FWEvent where
  | login
  | search

deriving DecidableEq, Repr

/-- Outcome of one upstream step: a value, an HTTP error raised by
raise_for_status, or any other exception. -/
inductive UpstreamOutcome (ρ : Type) where
  | ok (a : ρ)
  | httpError (status : Nat) (text : String)
  | raises (msg : String)

deriving DecidableEq, Repr

/-- Payload keys of consultar_fielweb that its validation reads (texto with
its alias consulta). -/
structure FielwebPayload where
  texto : Option String
  consulta : Option String

deriving DecidableEq, Repr

/-- Result of consultar_fielweb: the search response or the error dict the
except branches build. -/
inductive FWResult (ρ : Type) where
  | ok (r : ρ)
  | errorDict (msg : String)

deriving DecidableEq, Repr

/-- Model of the control flow of consultar_fielweb of fielweb_connector.py:
validation first (empty texto/consulta short-circuits), then one fresh
session and login, then the search; an HTTPError from either step lands in
the except requests.HTTPError branch, any other exception in the generic
branch.  There is no retry of any kind; the event list records every login
and search attempt in order.  login_and_token and buscar perform live HTTP in
the source and are parameters here; the optional norma-detail enrichment
performs no further login and is outside every claim. -/
def consultar_fielweb {ρ : Type} (payload : FielwebPayload)
    (login : UpstreamOutcome String) (buscar : String → UpstreamOutcome ρ) :
    FWResult ρ × List FWEvent :=
  let texto := pyStrip (firstTruthyStr [payload.texto, payload.consulta])
  if texto = ("") then
    (.errorDict ("Debe proporcionar \x27texto\x27 o \x27consulta\x27."), [])
  else
    match login with
    | .raises m => (.errorDict (("Error FielWeb: ") ++ m), [.login])
    | .httpError st tx =>
        (.errorDict (("HTTP ") ++ natToStr st ++ (" en FielWeb: ") ++ tx), [.login])
    | .ok tk =>
        match buscar tk with
        | .ok r => (.ok r, [.login, .search])
        | .httpError st tx =>
            (.errorDict (("HTTP ") ++ natToStr st ++ (" en FielWeb: ") ++ tx),
             [.login, .search])
        | .raises m => (.errorDict (("Error FielWeb: ") ++ m), [.login, .search])

/-- Key is absent, or present with a value in (None, "", []). -/
def emptyAtKey (d : List (String × RVal)) (k : String) : Bool :=
  match lookupKey d k with
  | none => true
  | some v => isEmptyVal v

/-- Count of login events strictly after the first search event: the number
of re-authentication attempts a retry policy would show in the trace. -/
def loginsAfterSearch (tr : List FWEvent) : Nat :=
  (tr.dropWhile (fun e => e != FWEvent.search)).count FWEvent.login

/-- Concrete payload used by the token counterexamples. -/
def c1Payload : TokenPayload := ⟨1, .pdf, false, .val 99⟩

/-- The base64url payload part of the token for c1Payload with its final
character altered from Q to R: the two characters agree on the two data bits
the decoder uses and differ only in the four unused trailing bits. -/
def c1AlteredB64 : List Char :=
  ("eyJjb25jb3JkYW5jaWFzIjpmYWxzZSwiZXhwIjo5OSwiZm9ybWF0byI6InBkZiIsIm5vcm1hX2lkIjoxfR").toList

deriving instance DecidableEq for Except

/-- Concrete records used by the aggregation claims. -/
def c2recA : JRec := ⟨some ("https://satje/doc/1"), "SATJE", "a", "2020", none⟩

/-- Second surviving record of the C2 scenario. -/
def c2recB : JRec := ⟨some ("https://cnj/doc/2"), "Corte Nacional de Justicia", "b", "2021", none⟩

/-- Source outcomes of the C2 scenario: the middle adapter raises. -/
def c2sources : List (String × SourceOutcome) :=
  [("SATJE", .ok [c2recA]),
   ("Corte Constitucional", .error ("boom")),
   ("Corte Nacional de Justicia", .ok [c2recB])]

/-- Records of the C3 witness: two share a url, the first wins. -/
def c3r1 : JRec := ⟨some ("https://x/doc/1"), "SATJE", "t1", "2020", none⟩

/-- Duplicate-url record of the C3 witness. -/
def c3r2 : JRec := ⟨some ("https://x/doc/1"), "CNJ", "t2", "2021", none⟩

/-- Distinct-url record of the C3 witness. -/
def c3r3 : JRec := ⟨some ("https://y/doc/9"), "CC", "t3", "2022", none⟩

/-- Input list of the C3 witness. -/
def c3items : List JRec := [c3r1, c3r2, c3r3]

/-- First empty-url record of the C4 counterexample. -/
def c4r1 : JRec := ⟨some (""), "Corte Constitucional", "Sentencia A", "2020-01-01", none⟩

/-- Second empty-url record of the C4 counterexample, with different
source, title and date. -/
def c4r2 : JRec := ⟨some (""), "Corte Nacional", "Sentencia B", "2021-05-05", none⟩

/-- Payload of the C5 witness (no exp entry, hence never expiring). -/
def c5Payload : TokenPayload := ⟨2, .word, true, .absent⟩

/-- Payload of the C10 witness with exp bound to the integer 0. -/
def c10Payload : TokenPayload := ⟨7, .html, false, .val 0⟩

set_option maxRecDepth 1000000

theorem digitsVal_append_digit (ds : List Nat) (d : Nat) :
    digitsVal (ds ++ [d]) = digitsVal ds * 10 + (d - 48) := by
  simp [digitsVal, List.foldl_append]

theorem digitsVal_natDecAux (fuel n : Nat) (h : n < fuel) :
    digitsVal (natDecAux fuel n) = n := by
  induction fuel generalizing n with
  | zero => omega
  | succ fuel ih =>
      by_cases hn : n < 10
      · simp [natDecAux, hn, digitsVal]
      · have hrec : n / 10 < fuel := by omega
        simp [natDecAux, hn, digitsVal_append_digit, ih _ hrec]
        omega

theorem digitsVal_natDec (n : Nat) : digitsVal (natDec n) = n :=
  digitsVal_natDecAux (n + 1) n (Nat.lt_succ_self n)

theorem natDecAux_digits (fuel n : Nat) :
    ∀ b ∈ natDecAux fuel n, 48 ≤ b ∧ b ≤ 57 := by
  induction fuel generalizing n with
  | zero => simp [natDecAux]
  | succ fuel ih =>
      by_cases hn : n < 10
      · simp [natDecAux, hn]; omega
      · simp only [natDecAux, hn, if_false, List.mem_append, List.mem_singleton]
        intro b hb
        rcases hb with hb | hb
        · exact ih _ b hb
        · subst hb; constructor <;> omega

theorem natDec_digits (n : Nat) : ∀ b ∈ natDec n, 48 ≤ b ∧ b ≤ 57 :=
  natDecAux_digits (n + 1) n

theorem natDecAux_ne_nil (fuel n : Nat) (h : 0 < fuel) :
    natDecAux fuel n ≠ [] := by
  cases fuel with
  | zero => omega
  | succ fuel =>
      by_cases hn : n < 10 <;> simp [natDecAux, hn]

theorem natDec_ne_nil (n : Nat) : natDec n ≠ [] :=
  natDecAux_ne_nil (n + 1) n (Nat.succ_pos n)

theorem b64CharVal_b64Char (v : Nat) : b64CharVal (b64Char v) = some (v % 64) := by
  have h : v % 64 < 64 := Nat.mod_lt _ (by omega)
  have htab : ∀ k, k < 64 → b64CharVal (b64Alphabet.getD k ('A')) = some k := by decide
  exact htab (v % 64) h

theorem b64Char_ne_pad (v : Nat) : b64Char v ≠ '=' := by
  have h : v % 64 < 64 := Nat.mod_lt _ (by omega)
  have htab : ∀ k, k < 64 → b64Alphabet.getD k ('A') ≠ '=' := by decide
  exact htab (v % 64) h

theorem b64urlEncode_nil : b64urlEncode [] = [] := rfl

theorem b64urlEncode_one (a : Nat) :
    b64urlEncode [a] = [b64Char (a / 4), b64Char (a % 4 * 16)] := by
  simp [b64urlEncode, b64EncodePadded, List.filter_cons, b64Char_ne_pad]

theorem b64urlEncode_two (a b : Nat) :
    b64urlEncode [a, b] =
      [b64Char (a / 4), b64Char (a % 4 * 16 + b / 16), b64Char (b % 16 * 4)] := by
  simp [b64urlEncode, b64EncodePadded, List.filter_cons, b64Char_ne_pad]

theorem b64urlEncode_cons3 (a b c : Nat) (rest : List Nat) :
    b64urlEncode (a :: b :: c :: rest) =
      b64Char (a / 4) :: b64Char (a % 4 * 16 + b / 16) ::
      b64Char (b % 16 * 4 + c / 64) :: b64Char (c % 64) :: b64urlEncode rest := by
  simp [b64urlEncode, b64EncodePadded, List.filter_cons, b64Char_ne_pad]

theorem b64_roundtrip (bs : List Nat) (h : ∀ b ∈ bs, b < 256) :
    b64urlDecode (b64urlEncode bs) = some bs := by
  induction bs using b64EncodePadded.induct with
  | case1 => rfl
  | case2 a =>
      have ha : a < 256 := h a (by simp)
      have h1 : a / 4 < 64 := by omega
      have h2 : a % 4 * 16 < 64 := by omega
      rw [b64urlEncode_one]
      simp only [b64urlDecode, List.length_cons, List.length_nil]
      norm_num [List.replicate, b64DecodeGroups, b64Char_ne_pad, b64CharVal_b64Char]
      omega
  | case3 a b =>
      have ha : a < 256 := h a (by simp)
      have hb : b < 256 := h b (by simp)
      have h1 : a / 4 < 64 := by omega
      have h2 : a % 4 * 16 + b / 16 < 64 := by omega
      have h3 : b % 16 * 4 < 64 := by omega
      rw [b64urlEncode_two]
      simp only [b64urlDecode, List.length_cons, List.length_nil]
      norm_num [List.replicate, b64DecodeGroups, b64Char_ne_pad, b64CharVal_b64Char]
      omega
  | case4 a b c rest ih =>
      have ha : a < 256 := h a (by simp)
      have hb : b < 256 := h b (by simp)
      have hc : c < 256 := h c (by simp)
      have hrest : ∀ x ∈ rest, x < 256 := fun x hx => h x (by simp [hx])
      have ih2 := ih hrest
      have h1 : a / 4 < 64 := by omega
      have h2 : a % 4 * 16 + b / 16 < 64 := by omega
      have h3 : b % 16 * 4 + c / 64 < 64 := by omega
      have h4 : c % 64 < 64 := by omega
      rw [b64urlEncode_cons3]
      simp only [b64urlDecode, List.length_cons] at ih2 ⊢
      have hmod :
          (4 - ((b64urlEncode rest).length + 1 + 1 + 1 + 1) % 4) % 4
            = (4 - (b64urlEncode rest).length % 4) % 4 := by
        omega
      rw [hmod]
      simp only [List.cons_append]
      rw [b64DecodeGroups.eq_def]
      dsimp only
      rw [if_neg (b64Char_ne_pad _), if_neg (b64Char_ne_pad _)]
      rw [b64CharVal_b64Char, b64CharVal_b64Char, b64CharVal_b64Char,
        b64CharVal_b64Char]
      dsimp only
      rw [ih2]
      simp only [Option.map_some']
      have e1 : a / 4 % 64 = a / 4 := Nat.mod_eq_of_lt h1
      have e2 : (a % 4 * 16 + b / 16) % 64 = a % 4 * 16 + b / 16 := Nat.mod_eq_of_lt h2
      have e3 : (b % 16 * 4 + c / 64) % 64 = b % 16 * 4 + c / 64 := Nat.mod_eq_of_lt h3
      rw [e1, e2, e3]
      simp only [Option.some.injEq, List.cons.injEq]
      refine ⟨by omega, by omega, by omega, trivial⟩

theorem hexDigitChar_ne_dot (n : Nat) : hexDigitChar n ≠ '.' := by
  have h : n % 16 < 16 := Nat.mod_lt _ (by omega)
  have htab : ∀ k, k < 16 → ("0123456789abcdef").toList.getD k ('0') ≠ '.' := by decide
  exact htab (n % 16) h

theorem dot_not_mem_toHex (bs : List Nat) : '.' ∉ toHex bs := by
  induction bs with
  | nil => simp [toHex]
  | cons b bs ih =>
      simp only [toHex, List.foldr] at ih ⊢
      intro hmem
      simp only [List.mem_cons] at hmem
      rcases hmem with h | h | h
      · exact hexDigitChar_ne_dot _ h.symm
      · exact hexDigitChar_ne_dot _ h.symm
      · exact ih h

theorem toHex_length (bs : List Nat) : (toHex bs).length = 2 * bs.length := by
  induction bs with
  | nil => simp [toHex]
  | cons b bs ih =>
      simp only [toHex, List.foldr, List.length_cons] at ih ⊢
      omega

theorem sha256_length (msg : List Nat) : (sha256 msg).length = 32 := by
  simp [sha256, wordBE]

theorem char_toNat_lt (c : Char) : c.toNat < 1114112 := by
  have h := c.valid
  rcases h with h | ⟨h1, h2⟩ <;> simp [Char.toNat] <;> omega

theorem utf8Char_lt_256 (c : Char) : ∀ b ∈ utf8Char c, b < 256 := by
  have hval := char_toNat_lt c
  unfold utf8Char
  by_cases h1 : c.toNat < 128
  · simp [h1]; omega
  · by_cases h2 : c.toNat < 2048
    · simp [h1, h2]
      constructor <;> omega
    · by_cases h3 : c.toNat < 65536
      · simp [h1, h2, h3]
        refine ⟨by omega, by omega, by omega⟩
      · simp [h1, h2, h3]
        refine ⟨by omega, by omega, by omega, by omega⟩

theorem strBytes_lt_256 (s : String) : ∀ b ∈ strBytes s, b < 256 := by
  unfold strBytes
  induction s.toList with
  | nil => simp
  | cons c cs ih =>
      simp only [List.foldr, List.mem_append]
      intro b hb
      rcases hb with hb | hb
      · exact utf8Char_lt_256 c b hb
      · exact ih b hb

theorem stripLit_append (ps rest : List Nat) : stripLit ps (ps ++ rest) = some rest := by
  induction ps with
  | nil => rfl
  | cons p ps ih => simp [stripLit, ih]

theorem takeWhile_append_all {p : Nat → Bool} (xs ys : List Nat)
    (hx : ∀ x ∈ xs, p x = true) (hy : ys.takeWhile p = []) :
    (xs ++ ys).takeWhile p = xs := by
  induction xs with
  | nil => simpa using hy
  | cons x xs ih =>
      have hx1 : p x = true := hx x (by simp)
      simp only [List.cons_append, List.takeWhile_cons, hx1, if_true]
      rw [ih (fun a ha => hx a (by simp [ha]))]

theorem dropWhile_append_all {p : Nat → Bool} (xs ys : List Nat)
    (hx : ∀ x ∈ xs, p x = true) (hy : ys.dropWhile p = ys) :
    (xs ++ ys).dropWhile p = ys := by
  induction xs with
  | nil => simpa using hy
  | cons x xs ih =>
      have hx1 : p x = true := hx x (by simp)
      simp only [List.cons_append, List.dropWhile_cons, hx1, if_true]
      rw [ih (fun a ha => hx a (by simp [ha]))]

theorem parseNat_natDec (n : Nat) (rest : List Nat) (h : headNotDigit rest = true) :
    parseNatBytes (natDec n ++ rest) = some (n, rest) := by
  have hdig : ∀ x ∈ natDec n, isDigitByte x = true := by
    intro x hx
    have := natDec_digits n x hx
    simp [isDigitByte]
    omega
  have htake : rest.takeWhile isDigitByte = [] := by
    cases rest with
    | nil => rfl
    | cons b bs =>
        simp only [headNotDigit, Bool.not_eq_true'] at h
        simp [List.takeWhile_cons, h]
  have hdrop : rest.dropWhile isDigitByte = rest := by
    cases rest with
    | nil => rfl
    | cons b bs =>
        simp only [headNotDigit, Bool.not_eq_true'] at h
        simp [List.dropWhile_cons, h]
  unfold parseNatBytes
  rw [takeWhile_append_all _ _ hdig htake, dropWhile_append_all _ _ hdig hdrop]
  have hne : (natDec n).isEmpty = false := by
    cases hh : natDec n with
    | nil => exact absurd hh (natDec_ne_nil n)
    | cons x xs => rfl
  rw [hne]
  simp [digitsVal_natDec]

theorem parseBool_dumps (conc : Bool) (rest : List Nat) :
    parseBoolBytes (asciiBytes (if conc then ("true") else ("false")) ++ rest)
      = some (conc, rest) := by
  cases conc
  · show parseBoolBytes (asciiBytes ("false") ++ rest) = some (false, rest)
    unfold parseBoolBytes
    have h1 : stripLit (asciiBytes ("true")) (asciiBytes ("false") ++ rest) = none := rfl
    rw [h1]
    dsimp only
    rw [stripLit_append]
  · show parseBoolBytes (asciiBytes ("true") ++ rest) = some (true, rest)
    unfold parseBoolBytes
    rw [stripLit_append]

theorem stripLit_null_digits (bs rest : List Nat) (hne : bs ≠ [])
    (hdig : ∀ b ∈ bs, 48 ≤ b ∧ b ≤ 57) :
    stripLit (asciiBytes ("null")) (bs ++ rest) = none := by
  cases bs with
  | nil => exact absurd rfl hne
  | cons b bs =>
      have hb := hdig b (by simp)
      have hlit : asciiBytes ("null") = [110, 117, 108, 108] := rfl
      rw [hlit]
      simp only [List.cons_append, stripLit]
      rw [if_neg (by omega)]

theorem parseExp_dumps (exp : ExpField) (r : List Nat) :
    parseExpBytes
      ((match exp with
        | .absent => []
        | .null => asciiBytes (",\"exp\":null")
        | .val e => asciiBytes (",\"exp\":") ++ natDec e) ++
       (asciiBytes (",\"formato\":\"") ++ r))
      = some (exp, asciiBytes (",\"formato\":\"") ++ r) := by
  cases exp with
  | absent =>
      show parseExpBytes ([] ++ (asciiBytes (",\"formato\":\"") ++ r)) = _
      rw [List.nil_append]
      unfold parseExpBytes
      have h1 : stripLit (asciiBytes (",\"exp\":")) (asciiBytes (",\"formato\":\"") ++ r)
          = none := rfl
      rw [h1]
  | null =>
      show parseExpBytes (asciiBytes (",\"exp\":null") ++ (asciiBytes (",\"formato\":\"") ++ r)) = _
      unfold parseExpBytes
      have hsplit : asciiBytes (",\"exp\":null") = asciiBytes (",\"exp\":") ++ asciiBytes ("null") := rfl
      rw [hsplit, List.append_assoc, stripLit_append]
      dsimp only
      rw [stripLit_append]
  | val e =>
      show parseExpBytes ((asciiBytes (",\"exp\":") ++ natDec e) ++ (asciiBytes (",\"formato\":\"") ++ r)) = _
      unfold parseExpBytes
      rw [List.append_assoc, stripLit_append]
      dsimp only
      rw [stripLit_null_digits _ _ (natDec_ne_nil e) (natDec_digits e)]
      dsimp only
      rw [parseNat_natDec e _ (by rfl)]

theorem parseFormato_dumps (fmt : Formato) (rest : List Nat) :
    parseFormatoBytes (asciiBytes fmt.str ++ rest) = some (fmt, rest) := by
  cases fmt
  · show parseFormatoBytes (asciiBytes ("pdf") ++ rest) = _
    unfold parseFormatoBytes
    rw [stripLit_append]
  · show parseFormatoBytes (asciiBytes ("word") ++ rest) = _
    unfold parseFormatoBytes
    have h1 : stripLit (asciiBytes ("pdf")) (asciiBytes ("word") ++ rest) = none := rfl
    rw [h1]
    dsimp only
    rw [stripLit_append]
  · show parseFormatoBytes (asciiBytes ("html") ++ rest) = _
    unfold parseFormatoBytes
    have h1 : stripLit (asciiBytes ("pdf")) (asciiBytes ("html") ++ rest) = none := rfl
    have h2 : stripLit (asciiBytes ("word")) (asciiBytes ("html") ++ rest) = none := rfl
    rw [h1]
    dsimp only
    rw [h2]
    dsimp only
    rw [stripLit_append]

theorem jsonLoads_dumpsBytes (p : TokenPayload) : jsonLoads (dumpsBytes p) = some p := by
  obtain ⟨nid, fmt, conc, exp⟩ := p
  unfold jsonLoads dumpsBytes
  simp only [List.append_assoc]
  rw [stripLit_append]
  dsimp only
  rw [parseBool_dumps]
  dsimp only
  rw [parseExp_dumps]
  dsimp only
  rw [stripLit_append]
  dsimp only
  rw [parseFormato_dumps]
  dsimp only
  rw [stripLit_append]
  dsimp only
  rw [parseNat_natDec nid _ (by rfl)]
  rfl

theorem dumpsBytes_lt_256 (p : TokenPayload) : ∀ b ∈ dumpsBytes p, b < 256 := by
  obtain ⟨nid, fmt, conc, exp⟩ := p
  have hnd : ∀ m : Nat, ∀ x ∈ natDec m, x < 256 := fun m x hx => by
    have := natDec_digits m x hx
    omega
  cases conc <;> cases exp <;> cases fmt <;>
    (unfold dumpsBytes
     dsimp only
     simp only [List.forall_mem_append, List.append_assoc]
     repeat' apply And.intro
     all_goals first
       | exact hnd _
       | decide)

theorem splitFirstDot_no_dot (xs ys : List Char) (h : '.' ∉ xs) :
    splitFirstDot (xs ++ '.' :: ys) = some (xs, ys) := by
  induction xs with
  | nil => simp [splitFirstDot]
  | cons c cs ih =>
      have hc : c ≠ '.' := fun hh => h (by simp [hh])
      have hcs : '.' ∉ cs := fun hh => h (by simp [hh])
      simp [splitFirstDot, hc, ih hcs]

theorem rsplitDot_append (a sig : List Char) (hsig : '.' ∉ sig) :
    rsplitDot (a ++ '.' :: sig) = some (a, sig) := by
  unfold rsplitDot
  have hrev : (a ++ '.' :: sig).reverse = sig.reverse ++ '.' :: a.reverse := by
    simp
  rw [hrev, splitFirstDot_no_dot _ _ (by simpa using hsig)]
  simp

theorem verify_sign_eq (p : TokenPayload) (secret : String) (now : Nat) :
    verify_download_token (sign_download_payload p secret) secret now =
      (match p.exp with
       | .val e =>
           if e ≠ 0 ∧ now > e then .error .expired else .ok p
       | _ => .ok p) := by
  unfold sign_download_payload verify_download_token
  rw [rsplitDot_append _ _ (dot_not_mem_toHex _)]
  dsimp only
  rw [b64_roundtrip _ (dumpsBytes_lt_256 p)]
  dsimp only
  rw [if_pos rfl, jsonLoads_dumpsBytes]

theorem verify_sign_roundtrip (p : TokenPayload) (secret : String) (now : Nat)
    (h : ∀ e, p.exp = .val e → e = 0 ∨ now ≤ e) :
    verify_download_token (sign_download_payload p secret) secret now = .ok p := by
  rw [verify_sign_eq]
  cases hexp : p.exp with
  | absent => rfl
  | null => rfl
  | val e =>
      have he := h e hexp
      dsimp only
      rw [if_neg (by omega)]

theorem verify_sign_expired (p : TokenPayload) (secret : String) (now e : Nat)
    (hexp : p.exp = .val e) (he : e ≠ 0) (hlt : e < now) :
    verify_download_token (sign_download_payload p secret) secret now
      = .error .expired := by
  rw [verify_sign_eq, hexp]
  dsimp only
  rw [if_pos (by omega)]

theorem verify_body_generic (body : List Nat) (hbody : ∀ b ∈ body, b < 256)
    (secret : String) (now : Nat) (sig : List Char) (hdot : '.' ∉ sig) :
    verify_download_token (b64urlEncode body ++ '.' :: sig) secret now =
      (if sig = toHex (hmacSha256 (strBytes secret) body) then
        match jsonLoads body with
        | none => .error .jsonFailure
        | some payload =>
            match payload.exp with
            | .val e => if e ≠ 0 ∧ now > e then .error .expired else .ok payload
            | _ => .ok payload
       else .error .badSignature) := by
  unfold verify_download_token
  rw [rsplitDot_append _ _ hdot]
  dsimp only
  rw [b64_roundtrip _ hbody]

theorem verify_bad_sig (body : List Nat) (hbody : ∀ b ∈ body, b < 256)
    (secret : String) (now : Nat) (sig : List Char) (hdot : '.' ∉ sig)
    (hne : sig ≠ toHex (hmacSha256 (strBytes secret) body)) :
    verify_download_token (b64urlEncode body ++ '.' :: sig) secret now
      = .error .badSignature := by
  rw [verify_body_generic body hbody secret now sig hdot, if_neg hne]

theorem hmacSha256_length (key msg : List Nat) : (hmacSha256 key msg).length = 32 := by
  unfold hmacSha256
  exact sha256_length _

theorem nil_ne_toHex_hmac (key msg : List Nat) :
    ([] : List Char) ≠ toHex (hmacSha256 key msg) := by
  intro h
  have hlen := congrArg List.length h
  rw [toHex_length, hmacSha256_length] at hlen
  simp at hlen

theorem dedupAux_sublist (seen : List String) (items : List JRec) :
    (dedupAux seen items).Sublist items := by
  induction items generalizing seen with
  | nil => simp [dedupAux]
  | cons r rs ih =>
      unfold dedupAux
      cases hu : r.url with
      | none => exact (ih seen).cons r
      | some u =>
          dsimp only
          by_cases hc : u ≠ ("") ∧ u ∉ seen
          · rw [if_pos hc]
            exact (ih (u :: seen)).cons₂ r
          · rw [if_neg hc]
            exact (ih seen).cons r

theorem dedupAux_mem_url (seen : List String) (items : List JRec) :
    ∀ r ∈ dedupAux seen items, ∃ u, r.url = some u ∧ u ≠ ("") ∧ u ∉ seen := by
  induction items generalizing seen with
  | nil => simp [dedupAux]
  | cons r rs ih =>
      unfold dedupAux
      cases hu : r.url with
      | none => exact fun x hx => ih seen x hx
      | some u =>
          dsimp only
          by_cases hc : u ≠ ("") ∧ u ∉ seen
          · rw [if_pos hc]
            intro x hx
            rcases List.mem_cons.mp hx with hx | hx
            · subst hx
              exact ⟨u, hu, hc⟩
            · rcases ih (u :: seen) x hx with ⟨w, hw, hw1, hw2⟩
              exact ⟨w, hw, hw1, fun hmem => hw2 (by simp [hmem])⟩
          · rw [if_neg hc]
            exact fun x hx => ih seen x hx

theorem dedupAux_pairwise (seen : List String) (items : List JRec) :
    (dedupAux seen items).Pairwise (fun a b => a.url ≠ b.url) := by
  induction items generalizing seen with
  | nil => simp [dedupAux]
  | cons r rs ih =>
      unfold dedupAux
      cases hu : r.url with
      | none => exact ih seen
      | some u =>
          dsimp only
          by_cases hc : u ≠ ("") ∧ u ∉ seen
          · rw [if_pos hc]
            refine List.Pairwise.cons ?_ (ih (u :: seen))
            intro x hx hxx
            rcases dedupAux_mem_url (u :: seen) rs x hx with ⟨w, hw, hw1, hw2⟩
            rw [hu, hw] at hxx
            have : w = u := by injection hxx.symm
            exact hw2 (by simp [this])
          · rw [if_neg hc]
            exact ih seen

theorem dedupAux_first_seen (seen : List String) (items : List JRec) :
    ∀ r ∈ dedupAux seen items,
      items.find? (fun x => x.url == r.url) = some r := by
  induction items generalizing seen with
  | nil => simp [dedupAux]
  | cons r rs ih =>
      unfold dedupAux
      cases hu : r.url with
      | none =>
          intro x hx
          rcases dedupAux_mem_url seen rs x hx with ⟨w, hw, hw1, hw2⟩
          rw [List.find?_cons_of_neg, ih seen x hx]
          simp [hu, hw]
      | some u =>
          dsimp only
          by_cases hc : u ≠ ("") ∧ u ∉ seen
          · rw [if_pos hc]
            intro x hx
            rcases List.mem_cons.mp hx with hx | hx
            · subst hx
              rw [List.find?_cons_of_pos]
              simp
            · rcases dedupAux_mem_url (u :: seen) rs x hx with ⟨w, hw, hw1, hw2⟩
              have hwu : w ≠ u := fun hh => hw2 (by simp [hh])
              rw [List.find?_cons_of_neg, ih (u :: seen) x hx]
              simp [hu, hw]
              intro hh
              exact hwu hh.symm
          · rw [if_neg hc]
            intro x hx
            rcases dedupAux_mem_url seen rs x hx with ⟨w, hw, hw1, hw2⟩
            have hwu : r.url ≠ some w := by
              rw [hu]
              intro hh
              have hwu2 : u = w := by injection hh
              rcases not_and_or.mp hc with hc1 | hc1
              · exact hw1 (by simpa [hwu2] using not_not.mp hc1)
              · exact hw2 (by simpa [hwu2] using not_not.mp hc1)
            rw [List.find?_cons_of_neg, ih seen x hx]
            simp [hw]
            intro hh
            exact hwu (by rw [hh])

theorem pick_skip (d : List (String × RVal)) (k : String) (ks : List String)
    (h : emptyAtKey d k = true) : pick d (k :: ks) = pick d ks := by
  unfold emptyAtKey at h
  cases hl : lookupKey d k with
  | none =>
      conv_lhs => rw [pick.eq_def]
      dsimp only
      rw [hl]
  | some v =>
      rw [hl] at h
      conv_lhs => rw [pick.eq_def]
      dsimp only
      rw [hl]
      dsimp only
      rw [if_pos h]

theorem pick_hit (d : List (String × RVal)) (k : String) (ks : List String)
    (v : RVal) (hl : lookupKey d k = some v) (hv : isEmptyVal v = false) :
    pick d (k :: ks) = v := by
  conv_lhs => rw [pick.eq_def]
  dsimp only
  rw [hl]
  dsimp only
  rw [if_neg (by simp [hv])]

/-- Claim C1 counterexample: a download token whose base64url payload part
was altered in exactly one byte (the final character, changing only the four
trailing bits the lenient base64 decoder ignores) still verifies and returns
the same payload, instead of failing with a signature error. -/
theorem c1_tamper_counterexample :
    verify_download_token
        (c1AlteredB64 ++ '.' ::
          toHex (hmacSha256 (strBytes ("s3cr3t")) (dumpsBytes c1Payload)))
        ("s3cr3t") 0
      = .ok c1Payload
    ∧ c1AlteredB64 ≠ b64urlEncode (dumpsBytes c1Payload)
    ∧ c1AlteredB64.length = (b64urlEncode (dumpsBytes c1Payload)).length
    ∧ countDiffs c1AlteredB64 (b64urlEncode (dumpsBytes c1Payload)) = 1
    ∧ sign_download_payload c1Payload ("s3cr3t")
        = b64urlEncode (dumpsBytes c1Payload) ++ '.' ::
            toHex (hmacSha256 (strBytes ("s3cr3t")) (dumpsBytes c1Payload)) := by
  refine ⟨?_, by decide, by decide, by decide, rfl⟩
  have hdec : b64urlDecode c1AlteredB64 = some (dumpsBytes c1Payload) := by decide
  unfold verify_download_token
  rw [rsplitDot_append _ _ (dot_not_mem_toHex _)]
  dsimp only
  rw [hdec]
  dsimp only
  rw [if_pos rfl, jsonLoads_dumpsBytes]
  rfl

/-- Claim C1 (amended): minting then immediately verifying returns the same
payload whenever the exp entry is not already in the past; a token whose
truthy exp lies strictly in the past is rejected with an expiry error; and a
tampered token is rejected with a signature error provided the alteration
changes the outcome of the HMAC comparison - any altered signature part, or
any payload part that decodes to bytes with a different MAC.  (An alteration
confined to the unused trailing bits of the final base64 character evades
this, see the counterexample.) -/
theorem c1_token_laws_amended (p : TokenPayload) (secret : String)
    (now1 now2 e : Nat) (sig2 : List Char) (body2 : List Nat)
    (hok : ∀ e0, p.exp = .val e0 → e0 = 0 ∨ now1 ≤ e0)
    (hexp : p.exp = .val e) (he : e ≠ 0) (hlt : e < now2)
    (hdot : '.' ∉ sig2)
    (hsig : sig2 ≠ toHex (hmacSha256 (strBytes secret) (dumpsBytes p)))
    (hb2 : ∀ b ∈ body2, b < 256)
    (hmac2 : toHex (hmacSha256 (strBytes secret) body2)
        ≠ toHex (hmacSha256 (strBytes secret) (dumpsBytes p))) :
    verify_download_token (sign_download_payload p secret) secret now1 = .ok p
    ∧ verify_download_token (sign_download_payload p secret) secret now2
        = .error .expired
    ∧ verify_download_token (b64urlEncode (dumpsBytes p) ++ '.' :: sig2)
        secret now1 = .error .badSignature
    ∧ verify_download_token
        (b64urlEncode body2 ++ '.' ::
          toHex (hmacSha256 (strBytes secret) (dumpsBytes p))) secret now1
        = .error .badSignature :=
  ⟨verify_sign_roundtrip p secret now1 hok,
   verify_sign_expired p secret now2 e hexp he hlt,
   verify_bad_sig _ (dumpsBytes_lt_256 p) secret now1 sig2 hdot hsig,
   verify_bad_sig body2 hb2 secret now1 _ (dot_not_mem_toHex _) (Ne.symm hmac2)⟩

/-- Witness for the amended claim C1 at a concrete payload, secret and
clock. -/
theorem c1_token_laws_amended_witness :
    verify_download_token (sign_download_payload c1Payload ("s3cr3t"))
        ("s3cr3t") 0 = .ok c1Payload
    ∧ verify_download_token (sign_download_payload c1Payload ("s3cr3t"))
        ("s3cr3t") 100 = .error .expired
    ∧ verify_download_token (b64urlEncode (dumpsBytes c1Payload) ++ '.' :: [])
        ("s3cr3t") 0 = .error .badSignature
    ∧ verify_download_token
        (b64urlEncode (asciiBytes ("x")) ++ '.' ::
          toHex (hmacSha256 (strBytes ("s3cr3t")) (dumpsBytes c1Payload)))
        ("s3cr3t") 0 = .error .badSignature :=
  c1_token_laws_amended c1Payload ("s3cr3t") 0 100 99 [] (asciiBytes ("x"))
    (fun e0 _ => Or.inr (Nat.zero_le e0))
    (by decide) (by decide) (by decide)
    (by decide)
    (nil_ne_toHex_hmac _ _)
    (by decide)
    (by decide)

/-- Claim C2: when one source raises, the orchestrator converts the failure
into an error record, but the final dedup pass drops every record without a
truthy url, so the response succeeds and keeps the url-bearing records of the
other sources while containing zero error entries (the claim expects exactly
one). -/
theorem c2_error_entry_dropped :
    buscar_juris_async ("divorcio") c2sources
      = .ok (("Consulta completada para \x27divorcio\x27."), [c2recA, c2recB])
    ∧ ([c2recA, c2recB].filter (fun r => r.error.isSome)) = []
    ∧ ([c2recA, c2recB].filter (fun r => r.fuente == ("Corte Constitucional")))
        = [] := by
  decide

/-- Claim C3: the deduplicated list has pairwise distinct urls, is a
subsequence of the input (first-seen order preserved), and every kept record
has a non-empty url and is the first record of the input carrying that
url. -/
theorem c3_dedup_invariant (items : List JRec) :
    (dedup items).Pairwise (fun a b => a.url ≠ b.url)
    ∧ (dedup items).Sublist items
    ∧ ∀ r ∈ dedup items,
        (∃ u, r.url = some u ∧ u ≠ ("")) ∧
        items.find? (fun x => x.url == r.url) = some r := by
  refine ⟨dedupAux_pairwise [] items, dedupAux_sublist [] items, ?_⟩
  intro r hr
  rcases dedupAux_mem_url [] items r hr with ⟨u, hu, hu1, _⟩
  exact ⟨⟨u, hu, hu1⟩, dedupAux_first_seen [] items r hr⟩

/-- Witness for claim C3 on a concrete list with a duplicated url. -/
theorem c3_dedup_invariant_witness :
    (dedup c3items).Pairwise (fun a b => a.url ≠ b.url)
    ∧ (dedup c3items).Sublist c3items
    ∧ ((∃ u, c3r1.url = some u ∧ u ≠ ("")) ∧
        c3items.find? (fun x => x.url == c3r1.url) = some c3r1)
    ∧ dedup c3items = [c3r1, c3r3] := by
  have h := c3_dedup_invariant c3items
  have hmem : c3r1 ∈ dedup c3items := by decide
  exact ⟨h.1, h.2.1, h.2.2 c3r1 hmem, by decide⟩

/-- Claim C4 counterexample: two distinct records with empty urls are both
dropped by dedup (there is no composite source+title+date fallback key), not
both retained as the claim states. -/
theorem c4_empty_url_counterexample :
    dedup [c4r1, c4r2] = []
    ∧ c4r1.fuente ≠ c4r2.fuente
    ∧ c4r1.titulo ≠ c4r2.titulo
    ∧ c4r1.fecha ≠ c4r2.fecha := by
  decide

/-- Claim C4 (amended): a record whose url is empty (or whose url key is
missing) is dropped from the deduplicated result entirely; dedup keys only on
truthy urls and has no composite fallback. -/
theorem c4_empty_url_dropped_amended (items : List JRec) :
    ∀ r ∈ dedup items, ∃ u, r.url = some u ∧ u ≠ ("") := by
  intro r hr
  rcases dedupAux_mem_url [] items r hr with ⟨u, hu, hu1, _⟩
  exact ⟨u, hu, hu1⟩

/-- Witness for the amended claim C4. -/
theorem c4_empty_url_dropped_amended_witness :
    ∃ u, c3r1.url = some u ∧ u ≠ ("") :=
  c4_empty_url_dropped_amended c3items c3r1 (by decide)

/-- Claim C5: with a configured secret, whenever token verification fails the
download endpoint returns that verification error and the upstream fetch is
never invoked; the fetch runs only once verification has succeeded. -/
theorem c5_no_fetch_before_verification (token : List Char) (secret : String)
    (now : Nat) (fetch : Nat → Formato → Bool → Option FetchResult)
    (hs : secret ≠ ("")) :
    (∀ e, verify_download_token token secret now = .error e →
        fielweb_download token secret now fetch = (.verifyError e, false))
    ∧ (∀ p, verify_download_token token secret now = .ok p →
        (fielweb_download token secret now fetch).2 = true) := by
  constructor
  · intro e he
    unfold fielweb_download
    rw [if_neg hs, he]
  · intro p hp
    unfold fielweb_download
    rw [if_neg hs, hp]
    dsimp only
    cases fetch p.norma_id p.formato p.concordancias with
    | none => rfl
    | some r => cases hr : r.error <;> simp [hr]

/-- Witness for claim C5: a dotless token is rejected without any fetch, and
a freshly minted token reaches the fetch. -/
theorem c5_no_fetch_before_verification_witness :
    fielweb_download (("abc").toList) ("s") 0 (fun _ _ _ => none)
      = (.verifyError .invalidFormat, false)
    ∧ (fielweb_download (sign_download_payload c5Payload ("s")) ("s") 0
        (fun _ _ _ => none)).2 = true := by
  constructor
  · exact (c5_no_fetch_before_verification (("abc").toList) ("s") 0
      (fun _ _ _ => none) (by decide)).1 .invalidFormat (by decide)
  · exact (c5_no_fetch_before_verification (sign_download_payload c5Payload ("s"))
      ("s") 0 (fun _ _ _ => none) (by decide)).2 c5Payload
      (verify_sign_roundtrip c5Payload ("s") 0
        (fun e0 h0 => by simp [c5Payload] at h0))

/-- Claim C6: the normalized date of a sentencia record is norm_fecha of the
first key among fechaDecision, fechaNotificacion, fecha, fechaIngreso that is
present and non-empty; when only fechaIngreso is set (to a stripped non-empty
string) the date equals that value, and when none is set the date is the
empty string. -/
theorem c6_date_fallback (raw1 raw2 : List (String × RVal)) (v : String)
    (h1 : emptyAtKey raw1 ("fechaDecision") = true)
    (h2 : emptyAtKey raw1 ("fechaNotificacion") = true)
    (h3 : emptyAtKey raw1 ("fecha") = true)
    (h4 : lookupKey raw1 ("fechaIngreso") = some (.str v))
    (hv : v ≠ (""))
    (hvt : pyStrip v = v)
    (h5 : emptyAtKey raw2 ("fechaDecision") = true)
    (h6 : emptyAtKey raw2 ("fechaNotificacion") = true)
    (h7 : emptyAtKey raw2 ("fecha") = true)
    (h8 : emptyAtKey raw2 ("fechaIngreso") = true) :
    (map_sentencia_item raw1).fecha = v
    ∧ (map_sentencia_item raw2).fecha = ("")
    ∧ ∀ raw, (map_sentencia_item raw).fecha =
        norm_fecha (pick raw
          [("fechaDecision"), ("fechaNotificacion"), ("fecha"), ("fechaIngreso")]) := by
  refine ⟨?_, ?_, fun raw => rfl⟩
  · show norm_fecha (pick raw1 _) = v
    rw [pick_skip _ _ _ h1, pick_skip _ _ _ h2, pick_skip _ _ _ h3,
      pick_hit _ _ _ _ h4 (by simp [isEmptyVal, hv])]
    show pyStrip v = v
    exact hvt
  · show norm_fecha (pick raw2 _) = ("")
    rw [pick_skip _ _ _ h5, pick_skip _ _ _ h6, pick_skip _ _ _ h7,
      pick_skip _ _ _ h8]
    rfl

/-- Witness for claim C6 on concrete raw records. -/
theorem c6_date_fallback_witness :
    (map_sentencia_item [(("fechaIngreso"), .str ("2021-03-04")),
        (("otra"), .intVal 5)]).fecha = ("2021-03-04")
    ∧ (map_sentencia_item [(("fecha"), .str (""))]).fecha = ("")
    ∧ ∀ raw, (map_sentencia_item raw).fecha =
        norm_fecha (pick raw
          [("fechaDecision"), ("fechaNotificacion"), ("fecha"), ("fechaIngreso")]) :=
  c6_date_fallback
    [(("fechaIngreso"), .str ("2021-03-04")), (("otra"), .intVal 5)]
    [(("fecha"), .str (""))] ("2021-03-04")
    (by decide) (by decide) (by decide) (by decide) (by decide) (by decide)
    (by decide) (by decide) (by decide) (by decide)

/-- Claim C7 counterexample: 86400000 read as epoch milliseconds denotes
1970-01-02, but norm_fecha treats integers at or below 10^10 as epoch
seconds and yields 1972-09-27; and a string with surrounding whitespace is
stripped, not passed through unchanged. -/
theorem c7_norm_fecha_counterexample :
    norm_fecha (.intVal 86400000) = ("1972-09-27")
    ∧ dateOfSecs (86400000 / 1000) = ("1970-01-02")
    ∧ norm_fecha (.intVal 86400000) ≠ dateOfSecs (86400000 / 1000)
    ∧ norm_fecha (.str (" 2020-01-02 ")) = ("2020-01-02")
    ∧ norm_fecha (.str (" 2020-01-02 ")) ≠ (" 2020-01-02 ") := by
  decide

/-- Claim C7 (amended): norm_fecha maps None to the empty string, strips
strings of surrounding whitespace, converts integers above 10^10 as epoch
milliseconds to the Y-m-d UTC date, and converts integers at or below 10^10
as epoch seconds. -/
theorem c7_norm_fecha_amended (n m : Nat) (s : String)
    (hn : n > 10000000000) (hm : m ≤ 10000000000) :
    norm_fecha .null = ("")
    ∧ norm_fecha (.str s) = pyStrip s
    ∧ norm_fecha (.intVal n) = dateOfSecs (n / 1000)
    ∧ norm_fecha (.intVal m) = dateOfSecs m := by
  refine ⟨rfl, rfl, ?_, ?_⟩
  · unfold norm_fecha
    dsimp only
    rw [if_pos hn]
  · unfold norm_fecha
    dsimp only
    rw [if_neg (by omega)]

/-- Witness for the amended claim C7. -/
theorem c7_norm_fecha_amended_witness :
    norm_fecha .null = ("")
    ∧ norm_fecha (.str (" a ")) = pyStrip (" a ")
    ∧ norm_fecha (.intVal 1700000000000) = dateOfSecs (1700000000000 / 1000)
    ∧ norm_fecha (.intVal 1700000000) = dateOfSecs 1700000000 :=
  c7_norm_fecha_amended 1700000000000 1700000000 (" a ") (by decide) (by decide)

/-- Claim C8 counterexample: a 401 from the search is reported as an error
with a trace of exactly one login followed by one search - no
re-authentication attempt occurs after the failure (the claim expects exactly
one). -/
theorem c8_no_reauth_counterexample :
    consultar_fielweb (ρ := Nat) ⟨some ("contrato"), none⟩ (.ok ("tk"))
        (fun _ => .httpError 401 ("Unauthorized"))
      = (.errorDict ("HTTP 401 en FielWeb: Unauthorized"), [.login, .search])
    ∧ loginsAfterSearch [FWEvent.login, FWEvent.search] = 0
    ∧ List.count FWEvent.login [FWEvent.login, FWEvent.search] = 1 := by
  decide

/-- Claim C8 (amended): each consultar_fielweb call performs exactly one
login before the search; a 401/403 (any HTTP error status) from the search is
reported as an error immediately, with no re-authentication attempt and no
retry of any kind. -/
theorem c8_single_login_amended {ρ : Type} (payload : FielwebPayload)
    (tk : String) (buscar : String → UpstreamOutcome ρ) (st : Nat) (tx : String)
    (htexto : pyStrip (firstTruthyStr [payload.texto, payload.consulta]) ≠ (""))
    (hbuscar : buscar tk = .httpError st tx) :
    consultar_fielweb payload (.ok tk) buscar
      = (.errorDict (("HTTP ") ++ natToStr st ++ (" en FielWeb: ") ++ tx),
         [.login, .search])
    ∧ loginsAfterSearch [FWEvent.login, FWEvent.search] = 0
    ∧ List.count FWEvent.login [FWEvent.login, FWEvent.search] = 1 := by
  refine ⟨?_, by decide, by decide⟩
  unfold consultar_fielweb
  rw [if_neg htexto]
  dsimp only
  rw [hbuscar]

/-- Witness for the amended claim C8. -/
theorem c8_single_login_amended_witness :
    consultar_fielweb (ρ := Nat) ⟨some ("contrato"), none⟩ (.ok ("t"))
        (fun _ => .httpError 403 ("Forbidden"))
      = (.errorDict (("HTTP ") ++ natToStr 403 ++ (" en FielWeb: ") ++
          ("Forbidden")), [.login, .search])
    ∧ loginsAfterSearch [FWEvent.login, FWEvent.search] = 0
    ∧ List.count FWEvent.login [FWEvent.login, FWEvent.search] = 1 :=
  c8_single_login_amended ⟨some ("contrato"), none⟩ ("t")
    (fun _ => .httpError 403 ("Forbidden")) 403 ("Forbidden")
    (by decide) rfl

/-- Claim C9: an empty query text (after the alias or-chain and strip) makes
consultar_fielweb return its validation error with an empty upstream trace
(no login, no search), and makes consultar_jurisprudencia return its
validation error without invoking the orchestrator. -/
theorem c9_validation_short_circuit {ρ : Type} (fp : FielwebPayload)
    (login : UpstreamOutcome String) (buscar : String → UpstreamOutcome ρ)
    (jp : JurisPayload) (sources : List (String × SourceOutcome))
    (hfw : pyStrip (firstTruthyStr [fp.texto, fp.consulta]) = (""))
    (hjp : pyStrip (firstTruthyStr [jp.texto, jp.palabras_clave]) = ("")) :
    consultar_fielweb fp login buscar
      = (.errorDict ("Debe proporcionar \x27texto\x27 o \x27consulta\x27."), [])
    ∧ consultar_jurisprudencia jp sources
      = (.error ("Debe proporcionar un texto válido para búsqueda."), false) := by
  constructor
  · unfold consultar_fielweb
    rw [if_pos hfw]
  · unfold consultar_jurisprudencia
    rw [if_pos hjp]

/-- Witness for claim C9: whitespace-only texto and empty palabras_clave. -/
theorem c9_validation_short_circuit_witness :
    consultar_fielweb (ρ := Nat) ⟨some ("   "), none⟩ (.ok ("tk"))
        (fun _ => .ok 0)
      = (.errorDict ("Debe proporcionar \x27texto\x27 o \x27consulta\x27."), [])
    ∧ consultar_jurisprudencia ⟨none, some ("")⟩ []
      = (.error ("Debe proporcionar un texto válido para búsqueda."), false) :=
  c9_validation_short_circuit ⟨some ("   "), none⟩ (.ok ("tk")) (fun _ => .ok 0)
    ⟨none, some ("")⟩ [] (by decide) (by decide)

/-- Claim C10: any token whose signature verifies and whose decoded payload
has its exp entry absent, null or equal to 0 is accepted regardless of the
current time; the expiry rejection fires only for a truthy exp strictly in
the past. -/
theorem c10_no_expiry_accepted (body : List Nat) (secret : String) (now : Nat)
    (p : TokenPayload) (hb : ∀ b ∈ body, b < 256)
    (hload : jsonLoads body = some p)
    (hexp : p.exp = .absent ∨ p.exp = .null ∨ p.exp = .val 0) :
    verify_download_token
      (b64urlEncode body ++ '.' :: toHex (hmacSha256 (strBytes secret) body))
      secret now = .ok p := by
  rw [verify_body_generic body hb secret now _ (dot_not_mem_toHex _),
    if_pos rfl, hload]
  dsimp only
  rcases hexp with h | h | h <;> rw [h]
  · dsimp only
    rw [if_neg (by omega)]

/-- Witness for claim C10: exp bound to 0, checked at a very late clock. -/
theorem c10_no_expiry_accepted_witness :
    verify_download_token
      (b64urlEncode (dumpsBytes c10Payload) ++ '.' ::
        toHex (hmacSha256 (strBytes ("k")) (dumpsBytes c10Payload)))
      ("k") 999999999999 = .ok c10Payload :=
  c10_no_expiry_accepted (dumpsBytes c10Payload) ("k") 999999999999 c10Payload
    (dumpsBytes_lt_256 c10Payload) (jsonLoads_dumpsBytes c10Payload)
    (by decide)
